import Mathlib

/-!
Verification of the quiz/mastery scoring core of a certification-study REST
API.  The definitions below are a shallow embedding of the route handlers:

* `POST /api/quizzes/submit` (final-version server): score, points, mastery
  update and history append inside one BEGIN/COMMIT/ROLLBACK transaction;
* `POST /api/quizzes`: the final/V5 servers use `max(3, floor(duration/1.5))`
  for the question count and a shuffle-then-slice selection, while the V3
  server uses `max(1, ...)` and a DB-backed formatter;
* `GET /api/analytics/mastery-trend`: filtered `ORDER BY recorded_at ASC`
  read of the history table.

JavaScript numbers are modelled by `JSNum`: a finite value is carried as an
exact rational, and the special values NaN and the two infinities are
explicit constructors, so that division by zero and the propagation rules
of the handler arithmetic are represented faithfully.  Randomness (the
shuffle comparator) is injected: the shuffled list ranges over the
permutations of the stored list.  The relational store visible to the
submit handler is reduced to the rows addressed by one (user, topic) pair:
the user's points accumulator, the optional mastery row, and the history
rows, which is exactly the state the handler reads and writes.
-/

/-- Model of a JavaScript number as used by the handlers: NaN, the two
infinities, or a finite value carried as an exact rational. -/
inductive JSNum where
  | nan : JSNum
  | posInf : JSNum
  | negInf : JSNum
  | fin : ℚ → JSNum
deriving DecidableEq

namespace JSNum

/-- JS division: `0/0 = NaN`, `c/0 = ±Infinity` for `c ≠ 0`, NaN propagates,
finite over infinite is zero. -/
def div : JSNum → JSNum → JSNum
  | fin a, fin b =>
      if b = 0 then
        if a = 0 then nan else if 0 < a then posInf else negInf
      else fin (a / b)
  | nan, _ => nan
  | _, nan => nan
  | posInf, fin _ => posInf
  | negInf, fin _ => negInf
  | fin _, posInf => fin 0
  | fin _, negInf => fin 0
  | posInf, posInf => nan
  | posInf, negInf => nan
  | negInf, posInf => nan
  | negInf, negInf => nan

/-- JS multiplication: NaN propagates, `±Infinity * 0 = NaN`, signs multiply. -/
def mul : JSNum → JSNum → JSNum
  | fin a, fin b => fin (a * b)
  | nan, _ => nan
  | _, nan => nan
  | posInf, fin q => if q = 0 then nan else if 0 < q then posInf else negInf
  | fin q, posInf => if q = 0 then nan else if 0 < q then posInf else negInf
  | negInf, fin q => if q = 0 then nan else if 0 < q then negInf else posInf
  | fin q, negInf => if q = 0 then nan else if 0 < q then negInf else posInf
  | posInf, posInf => posInf
  | posInf, negInf => negInf
  | negInf, posInf => negInf
  | negInf, negInf => posInf

/-- JS addition: NaN propagates, `Infinity + (-Infinity) = NaN`. -/
def add : JSNum → JSNum → JSNum
  | fin a, fin b => fin (a + b)
  | nan, _ => nan
  | _, nan => nan
  | posInf, negInf => nan
  | negInf, posInf => nan
  | posInf, _ => posInf
  | _, posInf => posInf
  | negInf, _ => negInf
  | _, negInf => negInf

/-- `Math.round`: half-up rounding `⌊x + 0.5⌋` on finite values, identity on
the special values. -/
def round : JSNum → JSNum
  | fin q => fin (⌊q + 1 / 2⌋ : ℤ)
  | nan => nan
  | posInf => posInf
  | negInf => negInf

/-- `Math.min`: NaN-absorbing, otherwise the numeric minimum. -/
def minJS : JSNum → JSNum → JSNum
  | nan, _ => nan
  | _, nan => nan
  | negInf, _ => negInf
  | _, negInf => negInf
  | posInf, b => b
  | a, posInf => a
  | fin a, fin b => fin (min a b)

/-- JS strict equality `===` on numbers: false whenever either side is NaN. -/
def strictEq : JSNum → JSNum → Bool
  | fin a, fin b => a = b
  | posInf, posInf => true
  | negInf, negInf => true
  | _, _ => false

/-- Binding of a handler value as a Postgres `INT` parameter: only a finite
integral value binds; NaN, the infinities and fractional values make the
query fail with an invalid-input error. -/
def toInt : JSNum → Option ℤ
  | fin q => if q.den = 1 then some q.num else none
  | _ => none

end JSNum

/-- Line 393 of the final server:
`const score = (correctAnswers / totalQuestions) * 100`. -/
def scoreOf (correct total : ℤ) : JSNum :=
  ((JSNum.fin correct).div (JSNum.fin total)).mul (JSNum.fin 100)

/-- Line 399 of the final server:
`const pointsEarned = (correctAnswers * 10) + (score === 100 ? 50 : 0)`. -/
def pointsEarnedOf (correct total : ℤ) : ℤ :=
  correct * 10 + (if (scoreOf correct total).strictEq (JSNum.fin 100) then 50 else 0)

/-- Line 404 of the final server:
`const newMastery = Math.min(100, Math.round(currentMastery + (score / 100 * 20)))`. -/
def newMasteryOf (currentMastery correct total : ℤ) : JSNum :=
  (JSNum.fin 100).minJS
    (((JSNum.fin currentMastery).add
      (((scoreOf correct total).div (JSNum.fin 100)).mul (JSNum.fin 20))).round)

/-- Scalar form of line 404 for an ordinary finite score:
`min(100, round(currentMastery + score / 100 * 20))` with half-up rounding. -/
def newMasteryNum (currentMastery : ℤ) (score : ℚ) : ℤ :=
  min 100 ⌊(currentMastery : ℚ) + score / 100 * 20 + 1 / 2⌋

/-- Formula of spec section 8, stated in its own words for comparison:
`newMastery == min(100, round(currentMastery + score*0.2))`. -/
def specNewMastery (currentMastery : ℤ) (score : ℚ) : ℤ :=
  min 100 ⌊(currentMastery : ℚ) + score * 0.2 + 1 / 2⌋

/-- Line 376 of the final server (and line 640 of the V5 server):
`const numQuestions = Math.max(3, Math.floor(duration / 1.5))`. -/
def numQuestions (duration : ℚ) : ℤ :=
  max 3 ⌊duration / 1.5⌋

/-- Line 187 of the V3 server (src/index.js):
`const numQuestions = Math.max(1, Math.floor(duration / 1.5))`. -/
def numQuestionsV3 (duration : ℚ) : ℤ :=
  max 1 ⌊duration / 1.5⌋

/-- Formula of spec section 8, stated in its own words for comparison:
`questionCount(d) == max(3, floor(d/1.5))`. -/
def questionCountSpec (duration : ℚ) : ℤ :=
  max 3 ⌊duration / 1.5⌋

/-- Rows of the backing store addressed by one (user, topic) pair, which is
all the state `POST /api/quizzes/submit` touches: the `user_stats.points`
accumulator, the optional `user_mastery` row, and the ordered
`user_mastery_history` values. -/
structure Store where
  points : ℤ
  mastery : Option ℤ
  history : List ℤ
deriving DecidableEq

/-- Transactional body of `POST /api/quizzes/submit` (final server, lines
390-425).  The three Boolean flags model transient store failures of the
three writes (points UPDATE, mastery UPDATE, history INSERT); a failed
query reaches the catch block, which issues ROLLBACK and answers 500, so
the store is left at its entry value.  The mastery UPDATE also fails
intrinsically when the computed value does not bind as an INT parameter
(NaN).  The mastery SELECT models `rows[0]?.mastery_score || 0`, and the
UPDATE touches only an existing row. -/
def submitQuizF (st : Store) (correct total : ℤ)
    (failPoints failMastery failHistory : Bool) : Store × ℕ :=
  if failPoints then (st, 500)
  else
    match (newMasteryOf (st.mastery.getD 0) correct total).toInt with
    | none => (st, 500)
    | some m =>
      if failMastery then (st, 500)
      else if failHistory then (st, 500)
      else
        ({ points := st.points + pointsEarnedOf correct total,
           mastery := st.mastery.map fun _ => m,
           history := st.history ++ [m] }, 200)

/-- One `POST /api/quizzes/submit` request against a healthy store. -/
def submitQuiz (st : Store) (correct total : ℤ) : Store × ℕ :=
  submitQuizF st correct total false false false

/-- Shape of one entry of `contentDB.questions[topic]` in the final and V5
servers. -/
structure QuizQuestion where
  id : ℤ
  question : String
  options : List String
  answer : String
  explanation : String
  eli5 : String
deriving DecidableEq

/-- Lines 378-380 of the final server: the topic pool is shuffled
(`sort(() => 0.5 - Math.random())`, injected here as any permutation
`shuffled` of the pool) and `slice(0, numQuestions)` keeps the first
`n` entries. -/
def selectQuestions (shuffled : List QuizQuestion) (n : ℕ) : List QuizQuestion :=
  shuffled.take n

/-- Two-question sample pool used to instantiate the selection contract. -/
def samplePool : List QuizQuestion :=
  [{ id := 1, question := "q one", options := ["a", "b"], answer := "a",
     explanation := "e one", eli5 := "s one" },
   { id := 2, question := "q two", options := ["c", "d"], answer := "d",
     explanation := "e two", eli5 := "s two" }]

/-- One concrete shuffle of `samplePool`. -/
def sampleShuffled : List QuizQuestion := samplePool.reverse

/-- Question ids of the V5 content library pool for Motivational
Interviewing (src/index.js). -/
def miQuestionIds : List ℤ := [1, 2, 3, 4, 12, 15, 16, 18, 19, 20]

/-- Question ids of the V5 content library pool for SMART Goals. -/
def smartQuestionIds : List ℤ := [5, 6, 7, 13, 14, 17, 21, 22]

/-- Question ids of the V5 content library pool for HIPAA Basics. -/
def hipaaQuestionIds : List ℤ := [8, 9, 10, 11, 23, 24]

/-- Row of `question_options` as returned by the V3 quiz query. -/
structure DBOption where
  option_id : ℤ
  option_text : String
  is_correct : Bool
deriving DecidableEq

/-- Row of `questions` with its aggregated options, as returned by the V3
quiz query. -/
structure DBQuestion where
  question_id : ℤ
  question_text : String
  explanation : String
  eli5_explanation : String
  options : List DBOption
deriving DecidableEq

/-- Wire shape produced by the V3 formatter for one question. -/
structure FormattedQuestion where
  id : ℤ
  question : String
  explanation : String
  eli5 : String
  answer : String
  options : List String
deriving DecidableEq

/-- Lines 204-211 of the V3 server, for one row: the answer is
`q.options.find(opt => opt.is_correct).option_text`; when no option is
marked correct, `find` yields `undefined` and the member access throws,
modelled by `none`.  The random shuffle of the option texts is a
permutation of the list kept here in storage order. -/
def formatQuestion (q : DBQuestion) : Option FormattedQuestion :=
  match q.options.find? (fun o => o.is_correct) with
  | none => none
  | some correct =>
      some { id := q.question_id, question := q.question_text,
             explanation := q.explanation, eli5 := q.eli5_explanation,
             answer := correct.option_text,
             options := q.options.map (fun o => o.option_text) }

/-- The V3 formatter over all fetched rows: `questionsResult.rows.map(...)`
runs inside the route's try/catch, so the first throwing row aborts the
whole response with a 500 (`none`); no row is skipped. -/
def formatQuestions : List DBQuestion → Option (List FormattedQuestion)
  | [] => some []
  | q :: rest =>
    match formatQuestion q, formatQuestions rest with
    | some fq, some frest => some (fq :: frest)
    | _, _ => none

/-- Question row with no option marked correct. -/
def qNoCorrect : DBQuestion :=
  { question_id := 7, question_text := "q seven", explanation := "ex",
    eli5_explanation := "es",
    options := [{ option_id := 1, option_text := "a", is_correct := false },
                { option_id := 2, option_text := "b", is_correct := false }] }

/-- Question row with two options marked correct. -/
def qTwoCorrect : DBQuestion :=
  { question_id := 8, question_text := "q eight", explanation := "ex",
    eli5_explanation := "es",
    options := [{ option_id := 3, option_text := "a", is_correct := true },
                { option_id := 4, option_text := "b", is_correct := true }] }

/-- Row of the `user_mastery_history` table. -/
structure HistRow where
  user_id : ℤ
  topic_name : String
  mastery_score : ℤ
  recorded_at : ℤ
deriving DecidableEq

/-- Projection serialized by `GET /api/analytics/mastery-trend`:
`SELECT mastery_score, recorded_at`. -/
structure TrendPoint where
  mastery_score : ℤ
  recorded_at : ℤ
deriving DecidableEq

/-- Response of `GET /api/analytics/mastery-trend`: 400 for a missing
topic, otherwise 200 with the selected rows. -/
inductive TrendResponse where
  | badRequest : TrendResponse
  | ok : List TrendPoint → TrendResponse
deriving DecidableEq

/-- Rows of `user_mastery_history` selected by
`WHERE user_id = $1 AND topic_name = $2`. -/
def trendRowsFor (table : List HistRow) (userId : ℤ) (topic : String) : List HistRow :=
  table.filter (fun r => r.user_id == userId && r.topic_name == topic)

/-- Result set of the trend query, lines 436-439 of the final server:
the matching rows ordered by `recorded_at ASC` and projected to
`(mastery_score, recorded_at)`. -/
def trendQuery (table : List HistRow) (userId : ℤ) (topic : String) : List TrendPoint :=
  ((trendRowsFor table userId topic).insertionSort
      (fun a b => a.recorded_at ≤ b.recorded_at)).map
    (fun r => { mastery_score := r.mastery_score, recorded_at := r.recorded_at })

/-- Handler of `GET /api/analytics/mastery-trend`, lines 427-445: a falsy
`topic` query parameter (absent, or the empty string) answers 400 before
any query; otherwise the selected rows are returned with 200, an empty
result set included. -/
def masteryTrend (table : List HistRow) (userId : ℤ) (topic : Option String) :
    TrendResponse :=
  match topic with
  | none => .badRequest
  | some t => if t = "" then .badRequest else .ok (trendQuery table userId t)

/-- Sample history table used to instantiate the trend contract. -/
def sampleHistTable : List HistRow :=
  [{ user_id := 7, topic_name := "mi", mastery_score := 20, recorded_at := 5 },
   { user_id := 7, topic_name := "mi", mastery_score := 10, recorded_at := 1 },
   { user_id := 9, topic_name := "mi", mastery_score := 50, recorded_at := 2 }]

theorem scoreOf_fin (c t : ℤ) (ht : t ≠ 0) :
    scoreOf c t = JSNum.fin ((c : ℚ) / t * 100) := by
  have htq : (t : ℚ) ≠ 0 := Int.cast_ne_zero.mpr ht
  simp [scoreOf, JSNum.div, JSNum.mul, htq]

theorem newMasteryOf_fin (cm c t : ℤ) (ht : t ≠ 0) :
    newMasteryOf cm c t =
      JSNum.fin ((newMasteryNum cm ((c : ℚ) / t * 100) : ℤ) : ℚ) := by
  rw [newMasteryOf, scoreOf_fin c t ht]
  simp only [JSNum.div, JSNum.mul, JSNum.add, JSNum.round, JSNum.minJS,
    newMasteryNum]
  norm_num

theorem toInt_intCast (m : ℤ) : (JSNum.fin (m : ℚ)).toInt = some m := by
  simp [JSNum.toInt, Rat.den_intCast, Rat.num_intCast]

theorem pointsEarnedOf_eval (c t : ℤ) (ht : t ≠ 0) :
    pointsEarnedOf c t =
      c * 10 + (if (c : ℚ) / t * 100 = 100 then 50 else 0) := by
  rw [pointsEarnedOf, scoreOf_fin c t ht]
  simp [JSNum.strictEq]

theorem submitQuiz_eval (st : Store) (c t : ℤ) (ht : t ≠ 0) :
    submitQuiz st c t =
      ({ points := st.points + pointsEarnedOf c t,
         mastery := st.mastery.map fun _ => newMasteryNum (st.mastery.getD 0) ((c : ℚ) / t * 100),
         history := st.history ++ [newMasteryNum (st.mastery.getD 0) ((c : ℚ) / t * 100)] },
       200) := by
  rw [submitQuiz, submitQuizF, newMasteryOf_fin _ c t ht, toInt_intCast]
  simp

theorem formatQuestions_none_of_mem (rows : List DBQuestion) (q : DBQuestion)
    (hq : q ∈ rows) (hn : formatQuestion q = none) :
    formatQuestions rows = none := by
  induction rows with
  | nil => simp at hq
  | cons a l ih =>
    rcases List.mem_cons.mp hq with h | h
    · subst h
      cases hl : formatQuestions l <;> simp [formatQuestions, hn, hl]
    · cases ha : formatQuestion a <;> simp [formatQuestions, ha, ih h]

theorem formatQuestions_length (rows : List DBQuestion)
    (hall : ∀ q ∈ rows, ∃ o ∈ q.options, o.is_correct = true) :
    ∃ l, formatQuestions rows = some l ∧ l.length = rows.length := by
  induction rows with
  | nil => exact ⟨[], rfl, rfl⟩
  | cons a l ih =>
    obtain ⟨l2, hl2, hlen⟩ := ih (fun q hq => hall q (List.mem_cons_of_mem a hq))
    obtain ⟨o, ho, hoc⟩ := hall a (List.mem_cons_self a l)
    have hfq : ∃ fq, formatQuestion a = some fq := by
      rcases hfind : a.options.find? (fun o => o.is_correct) with _ | oc
      · rcases List.find?_eq_none.mp hfind o ho with hcontra
        simp [hoc] at hcontra
      · exact ⟨{ id := a.question_id, question := a.question_text,
                 explanation := a.explanation, eli5 := a.eli5_explanation,
                 answer := oc.option_text,
                 options := a.options.map (fun o => o.option_text) },
               by simp [formatQuestion, hfind]⟩
    obtain ⟨fq, hfq⟩ := hfq
    exact ⟨fq :: l2, by simp [formatQuestions, hfq, hl2], by simp [hlen]⟩

/-- C1: for currentMastery in [0,100] and score in [0,100], the submit
handler's mastery formula equals the spec formula
`min(100, round(currentMastery + score*0.2))`, and the updated mastery
never falls below the current mastery. -/
theorem mastery_update_matches_spec (cm : ℤ) (score : ℚ)
    (h0 : 0 ≤ cm) (h1 : cm ≤ 100) (h2 : 0 ≤ score) (h3 : score ≤ 100) :
    newMasteryNum cm score = specNewMastery cm score ∧
    cm ≤ newMasteryNum cm score := by
  constructor
  · have harg : (cm : ℚ) + score / 100 * 20 + 1 / 2 = (cm : ℚ) + score * 0.2 + 1 / 2 := by
      rw [show (0.2 : ℚ) = 1 / 5 by norm_num]
      ring
    rw [newMasteryNum, specNewMastery, harg]
  · rw [newMasteryNum]
    refine le_min (by exact_mod_cast h1) ?_
    rw [Int.le_floor]
    have hpos : (0 : ℚ) ≤ score / 100 * 20 := by positivity
    linarith

/-- C1 witness: the hypotheses and conclusion at currentMastery 90 and
score 100, where the updated mastery evaluates to 100. -/
theorem mastery_update_matches_spec_witness :
    (0 : ℤ) ≤ 90 ∧ (90 : ℤ) ≤ 100 ∧ (0 : ℚ) ≤ 100 ∧ (100 : ℚ) ≤ 100 ∧
    (newMasteryNum 90 100 = specNewMastery 90 100 ∧ 90 ≤ newMasteryNum 90 100) ∧
    newMasteryNum 90 100 = 100 := by
  refine ⟨by norm_num, by norm_num, by norm_num, by norm_num,
    mastery_update_matches_spec 90 100 (by norm_num) (by norm_num) (by norm_num) (by norm_num), ?_⟩
  have hfl : ⌊((90 : ℤ) : ℚ) + 100 / 100 * 20 + 1 / 2⌋ = 110 := by norm_num
  rw [newMasteryNum, hfl]
  decide

/-- C2: for 0 ≤ correct ≤ total with total > 0, the points awarded by the
submit handler equal `correct*10` plus a flat 50 bonus exactly when
`correct = total`. -/
theorem points_bonus_iff_perfect (c t : ℤ) (h0 : 0 ≤ c) (h1 : c ≤ t) (h2 : 0 < t) :
    pointsEarnedOf c t = c * 10 + (if c = t then 50 else 0) := by
  have ht : t ≠ 0 := ne_of_gt h2
  have htq : (t : ℚ) ≠ 0 := Int.cast_ne_zero.mpr ht
  rw [pointsEarnedOf_eval c t ht]
  have key : ((c : ℚ) / t * 100 = 100) ↔ c = t := by
    rw [div_mul_eq_mul_div, div_eq_iff htq]
    constructor
    · intro h
      have hq : (c : ℚ) = t := by linarith
      exact_mod_cast hq
    · intro h
      subst h
      ring
  simp only [key]

/-- C2 witness: a perfect 5-of-5 submission earns 100 points, the flat
bonus included. -/
theorem points_bonus_iff_perfect_witness :
    (0 : ℤ) ≤ 5 ∧ (5 : ℤ) ≤ 5 ∧ (0 : ℤ) < 5 ∧
    pointsEarnedOf 5 5 = 5 * 10 + (if (5 : ℤ) = 5 then 50 else 0) ∧
    pointsEarnedOf 5 5 = 100 := by
  refine ⟨by norm_num, by norm_num, by norm_num,
    points_bonus_iff_perfect 5 5 (by norm_num) (by norm_num) (by norm_num), ?_⟩
  rw [pointsEarnedOf_eval 5 5 (by norm_num)]
  norm_num

/-- C3 counterexample: submit(correct=6, total=5) violates the
precondition, yet the handler answers 200 (no validation error) and does
mutate the store. -/
theorem submit_validation_cex :
    ¬ ((6 : ℤ) ≤ 5) ∧
    (submitQuiz { points := 0, mastery := some 0, history := [] } 6 5).2 = 200 ∧
    (submitQuiz { points := 0, mastery := some 0, history := [] } 6 5).1 ≠
      { points := 0, mastery := some 0, history := [] } := by
  refine ⟨by decide, ?_, ?_⟩ <;>
    rw [submitQuiz_eval _ 6 5 (by norm_num)] <;> simp

/-- C3 amended: the handler performs no input validation and never issues
a validation error.  Every submission with totalQuestions ≠ 0 — violations
such as correct > total or negative counts included — is processed by the
ordinary formulas and commits with 200.  With totalQuestions = 0 and
correctAnswers ≤ 0 (submit(0,0) among them) the computed mastery is NaN or
negative Infinity, the mastery UPDATE fails to bind as an INT parameter,
the transaction rolls back, and the caller sees a 500 internal error with
the store unchanged.  With totalQuestions = 0 and correctAnswers > 0 the
Infinity score is clamped by Math.min and the submission commits with
mastery 100. -/
theorem submit_no_validation_behavior :
    (∀ (st : Store) (c : ℤ), c ≤ 0 → submitQuiz st c 0 = (st, 500)) ∧
    (∀ (st : Store) (c : ℤ), 0 < c →
      submitQuiz st c 0 =
        ({ points := st.points + c * 10,
           mastery := st.mastery.map fun _ => 100,
           history := st.history ++ [100] }, 200)) ∧
    (∀ (st : Store) (c t : ℤ), t ≠ 0 → (submitQuiz st c t).2 = 200) ∧
    (submitQuiz { points := 0, mastery := some 0, history := [] } 6 5).2 = 200 := by
  refine ⟨?_, ?_, ?_, ?_⟩
  · intro st c hc
    rcases eq_or_lt_of_le hc with heq | hlt
    · subst heq
      have hnan : (newMasteryOf (st.mastery.getD 0) 0 0).toInt = none := by
        simp [newMasteryOf, scoreOf, JSNum.div, JSNum.mul, JSNum.add, JSNum.round,
          JSNum.minJS, JSNum.toInt]
      rw [submitQuiz, submitQuizF, hnan]
      rfl
    · have hne : ((c : ℤ) : ℚ) ≠ 0 := Int.cast_ne_zero.mpr (ne_of_lt hlt)
      have hnlt : ¬(0 < ((c : ℤ) : ℚ)) := not_lt.mpr (by exact_mod_cast hlt.le)
      have hscore : scoreOf c 0 = JSNum.negInf := by
        norm_num [scoreOf, JSNum.div, JSNum.mul, hne, hnlt]
      have hneg : (newMasteryOf (st.mastery.getD 0) c 0).toInt = none := by
        rw [newMasteryOf, hscore]
        norm_num [JSNum.div, JSNum.mul, JSNum.add, JSNum.round, JSNum.minJS,
          JSNum.toInt]
      rw [submitQuiz, submitQuizF, hneg]
      rfl
  · intro st c hc
    have hne : ((c : ℤ) : ℚ) ≠ 0 := Int.cast_ne_zero.mpr (ne_of_gt hc)
    have hpos : (0 : ℚ) < ((c : ℤ) : ℚ) := by exact_mod_cast hc
    have hscore : scoreOf c 0 = JSNum.posInf := by
      norm_num [scoreOf, JSNum.div, JSNum.mul, hne, hpos]
    have hnm : newMasteryOf (st.mastery.getD 0) c 0 = JSNum.fin 100 := by
      rw [newMasteryOf, hscore]
      norm_num [JSNum.div, JSNum.mul, JSNum.add, JSNum.round, JSNum.minJS]
    have htoint : (JSNum.fin (100 : ℚ)).toInt = some 100 := by
      norm_num [JSNum.toInt]
    have hpe : pointsEarnedOf c 0 = c * 10 := by
      rw [pointsEarnedOf, hscore]
      simp [JSNum.strictEq]
    rw [submitQuiz, submitQuizF, hnm, htoint]
    simp [hpe]
  · intro st c t ht
    rw [submitQuiz_eval st c t ht]
  · rw [submitQuiz_eval _ 6 5 (by norm_num)]

/-- C3 amended witness: the three quantified parts instantiated concretely:
submit(-1, 0) rolls back with 500 and an unchanged store, submit(2, 0)
commits with 20 points and mastery clamped to 100, and submit(3, 4)
answers 200. -/
theorem submit_no_validation_behavior_witness :
    ((-1 : ℤ) ≤ 0 ∧
      submitQuiz (Store.mk 0 (some 50) []) (-1) 0 = (Store.mk 0 (some 50) [], 500)) ∧
    ((0 : ℤ) < 2 ∧
      submitQuiz (Store.mk 0 (some 50) []) 2 0 =
        ({ points := (Store.mk 0 (some 50) []).points + 2 * 10,
           mastery := (Store.mk 0 (some 50) []).mastery.map fun _ => 100,
           history := (Store.mk 0 (some 50) []).history ++ [100] }, 200)) ∧
    ((4 : ℤ) ≠ 0 ∧ (submitQuiz (Store.mk 0 (some 50) []) 3 4).2 = 200) :=
  ⟨⟨by norm_num, submit_no_validation_behavior.1 (Store.mk 0 (some 50) []) (-1) (by norm_num)⟩,
   ⟨by norm_num, submit_no_validation_behavior.2.1 (Store.mk 0 (some 50) []) 2 (by norm_num)⟩,
   ⟨by norm_num, submit_no_validation_behavior.2.2.1 (Store.mk 0 (some 50) []) 3 4 (by norm_num)⟩⟩

/-- C4 counterexample: at duration 0 the V3 generator requests
`max(1, floor(0/1.5)) = 1` question, not the `max(3, ...) = 3` of the
spec formula. -/
theorem question_count_v3_cex :
    (0 : ℚ) ≤ 0 ∧ numQuestionsV3 0 = 1 ∧ questionCountSpec 0 = 3 ∧
    numQuestionsV3 0 ≠ questionCountSpec 0 := by
  have hfl : ⌊(0 : ℚ) / 1.5⌋ = 0 := by norm_num
  refine ⟨le_refl 0, ?_, ?_, ?_⟩ <;>
    simp [numQuestionsV3, questionCountSpec, hfl]

/-- C4 amended: the final and V5 generators request
`max(3, floor(d/1.5))` questions, matching the spec formula for every
duration d ≥ 0; the V3 generator requests `max(1, floor(d/1.5))`, which
agrees with the spec formula only from d = 4.5 upward. -/
theorem question_count_by_version (d : ℚ) (hd : 0 ≤ d) :
    numQuestions d = questionCountSpec d ∧
    numQuestionsV3 d = max 1 ⌊d / 1.5⌋ ∧
    (9 / 2 ≤ d → numQuestionsV3 d = questionCountSpec d) := by
  refine ⟨rfl, rfl, fun h9 => ?_⟩
  have h3 : (3 : ℤ) ≤ ⌊d / 1.5⌋ := by
    rw [Int.le_floor]
    rw [show (1.5 : ℚ) = 3 / 2 by norm_num, le_div_iff₀ (by norm_num : (0 : ℚ) < 3 / 2)]
    push_cast
    linarith
  rw [numQuestionsV3, questionCountSpec, max_eq_right h3,
    max_eq_right (le_trans (by norm_num) h3)]

/-- C4 witness: at duration 10 both the final-server count and the spec
formula give 6, and the V3 count agrees as well. -/
theorem question_count_by_version_witness :
    (0 : ℚ) ≤ 10 ∧
    (numQuestions 10 = questionCountSpec 10 ∧
     numQuestionsV3 10 = max 1 ⌊(10 : ℚ) / 1.5⌋ ∧
     (9 / 2 ≤ (10 : ℚ) → numQuestionsV3 10 = questionCountSpec 10)) ∧
    numQuestions 10 = 6 := by
  refine ⟨by norm_num, question_count_by_version 10 (by norm_num), ?_⟩
  have hfl : ⌊(10 : ℚ) / 1.5⌋ = 6 := by
    rw [show (10 : ℚ) / 1.5 = 20 / 3 by norm_num]
    norm_num
  rw [numQuestions, hfl]
  decide

/-- C5: for a topic pool of k questions and a requested count n, the
generator returns exactly min(k, n) questions, all drawn from the pool,
with pairwise-distinct ids whenever the pool's ids are distinct, and an
empty pool yields an empty selection rather than an error. -/
theorem quiz_selection_contract (pool shuffled : List QuizQuestion) (n : ℕ)
    (hperm : shuffled.Perm pool) :
    (selectQuestions shuffled n).length = min n pool.length ∧
    (∀ q ∈ selectQuestions shuffled n, q ∈ pool) ∧
    ((pool.map QuizQuestion.id).Nodup →
      ((selectQuestions shuffled n).map QuizQuestion.id).Nodup) ∧
    (pool = [] → selectQuestions shuffled n = []) := by
  refine ⟨?_, ?_, ?_, ?_⟩
  · rw [selectQuestions, List.length_take, hperm.length_eq]
  · intro q hq
    exact hperm.subset (List.take_subset n shuffled hq)
  · intro hnd
    have h2 : (shuffled.map QuizQuestion.id).Nodup :=
      ((hperm.map QuizQuestion.id).nodup_iff).mpr hnd
    rw [selectQuestions, List.map_take]
    exact h2.sublist (List.take_sublist n (shuffled.map QuizQuestion.id))
  · intro hnil
    subst hnil
    rw [selectQuestions, List.Perm.eq_nil hperm, List.take_nil]

/-- C5 witness: the contract instantiated on the two-question sample pool
with a concrete shuffle and a requested count of 3, plus distinctness of
the V5 content library ids feeding the Nodup premise in production. -/
theorem quiz_selection_contract_witness :
    sampleShuffled.Perm samplePool ∧
    ((selectQuestions sampleShuffled 3).length = min 3 samplePool.length ∧
     (∀ q ∈ selectQuestions sampleShuffled 3, q ∈ samplePool) ∧
     ((samplePool.map QuizQuestion.id).Nodup →
       ((selectQuestions sampleShuffled 3).map QuizQuestion.id).Nodup) ∧
     (samplePool = [] → selectQuestions sampleShuffled 3 = [])) ∧
    miQuestionIds.Nodup ∧ smartQuestionIds.Nodup ∧ hipaaQuestionIds.Nodup := by
  have hperm : sampleShuffled.Perm samplePool := by decide
  exact ⟨hperm, quiz_selection_contract samplePool sampleShuffled 3 hperm,
    by decide, by decide, by decide⟩

/-- C6: the submit transaction is all-or-nothing: whenever the request does
not answer 200 (a transient failure of the points UPDATE, the mastery
UPDATE or the history INSERT, or the intrinsic parameter failure), the
store is left exactly at its entry value. -/
theorem submit_atomic_on_failure (st : Store) (c t : ℤ) (f1 f2 f3 : Bool)
    (h : (submitQuizF st c t f1 f2 f3).2 ≠ 200) :
    (submitQuizF st c t f1 f2 f3).1 = st := by
  cases f1 with
  | true => simp [submitQuizF]
  | false =>
    cases hm : (newMasteryOf (st.mastery.getD 0) c t).toInt with
    | none => simp [submitQuizF, hm]
    | some m =>
      cases f2 with
      | true => simp [submitQuizF, hm]
      | false =>
        cases f3 with
        | true => simp [submitQuizF, hm]
        | false =>
          exact absurd (by simp [submitQuizF, hm]) h

/-- C6 witness: with the points UPDATE failing on a valid submission, the
response is 500 and the store is unchanged. -/
theorem submit_atomic_on_failure_witness :
    (submitQuizF { points := 3, mastery := some 40, history := [40] } 3 4 true false false).2 ≠ 200 ∧
    (submitQuizF { points := 3, mastery := some 40, history := [40] } 3 4 true false false).1 =
      { points := 3, mastery := some 40, history := [40] } := by
  have h : (submitQuizF { points := 3, mastery := some 40, history := [40] } 3 4 true false false).2 ≠ 200 := by
    simp [submitQuizF]
  exact ⟨h, submit_atomic_on_failure _ 3 4 true false false h⟩

/-- C7: every successful submission appends exactly the post-update mastery
value to the history: the inserted row carries the same value the mastery
row is updated to, not the pre-update value. -/
theorem history_records_post_update_mastery (st : Store) (c t : ℤ)
    (h : (submitQuiz st c t).2 = 200) :
    ∃ m : ℤ, (newMasteryOf (st.mastery.getD 0) c t).toInt = some m ∧
      (submitQuiz st c t).1.history = st.history ++ [m] ∧
      (submitQuiz st c t).1.mastery = st.mastery.map (fun _ => m) := by
  cases hm : (newMasteryOf (st.mastery.getD 0) c t).toInt with
  | none =>
    rw [submitQuiz, submitQuizF, hm] at h
    simp at h
  | some m =>
    refine ⟨m, rfl, ?_, ?_⟩ <;> rw [submitQuiz, submitQuizF, hm] <;> simp

/-- C7 witness: submit(correct=5, total=5) at currentMastery 90 succeeds
and appends a history row with the post-update value 100. -/
theorem history_records_post_update_mastery_witness :
    (submitQuiz (Store.mk 0 (some 90) []) 5 5).2 = 200 ∧
    (∃ m : ℤ, (newMasteryOf ((Store.mk 0 (some 90) []).mastery.getD 0) 5 5).toInt = some m ∧
      (submitQuiz (Store.mk 0 (some 90) []) 5 5).1.history =
        (Store.mk 0 (some 90) []).history ++ [m] ∧
      (submitQuiz (Store.mk 0 (some 90) []) 5 5).1.mastery =
        (Store.mk 0 (some 90) []).mastery.map (fun _ => m)) ∧
    (submitQuiz (Store.mk 0 (some 90) []) 5 5).1.history = [100] := by
  have h200 : (submitQuiz (Store.mk 0 (some 90) []) 5 5).2 = 200 := by
    rw [submitQuiz_eval _ 5 5 (by norm_num)]
  refine ⟨h200, history_records_post_update_mastery (Store.mk 0 (some 90) []) 5 5 h200, ?_⟩
  rw [submitQuiz_eval _ 5 5 (by norm_num)]
  norm_num [newMasteryNum, min_def]

/-- C8: the analytics trend handler rejects a missing or empty topic with
400 before touching the store, and otherwise answers 200 with the matching
history rows in ascending recordedAt order; no matching history yields an
empty sequence with 200, not an error. -/
theorem mastery_trend_contract (table : List HistRow) (userId : ℤ) (topic : String)
    (htopic : topic ≠ "") :
    masteryTrend table userId none = .badRequest ∧
    masteryTrend table userId (some "") = .badRequest ∧
    masteryTrend table userId (some topic) = .ok (trendQuery table userId topic) ∧
    (trendQuery table userId topic).Pairwise (fun a b => a.recorded_at ≤ b.recorded_at) ∧
    (∀ p ∈ trendQuery table userId topic, ∃ r ∈ table,
      r.user_id = userId ∧ r.topic_name = topic ∧
      p = { mastery_score := r.mastery_score, recorded_at := r.recorded_at }) ∧
    ((∀ r ∈ table, ¬(r.user_id = userId ∧ r.topic_name = topic)) →
      trendQuery table userId topic = []) := by
  haveI htot : IsTotal HistRow (fun a b => a.recorded_at ≤ b.recorded_at) :=
    ⟨fun a b => le_total a.recorded_at b.recorded_at⟩
  haveI htr : IsTrans HistRow (fun a b => a.recorded_at ≤ b.recorded_at) :=
    ⟨fun _ _ _ hab hbc => le_trans hab hbc⟩
  refine ⟨rfl, by simp [masteryTrend], by simp [masteryTrend, htopic], ?_, ?_, ?_⟩
  · rw [trendQuery, List.pairwise_map]
    exact List.sorted_insertionSort (fun a b => a.recorded_at ≤ b.recorded_at)
      (trendRowsFor table userId topic)
  · intro p hp
    obtain ⟨r, hr, hpr⟩ := List.mem_map.mp hp
    have hr2 : r ∈ trendRowsFor table userId topic :=
      (List.perm_insertionSort _ _).mem_iff.mp hr
    rw [trendRowsFor, List.mem_filter] at hr2
    obtain ⟨hmem, hcond⟩ := hr2
    simp only [Bool.and_eq_true, beq_iff_eq] at hcond
    exact ⟨r, hmem, hcond.1, hcond.2, hpr.symm⟩
  · intro hno
    have hfil : trendRowsFor table userId topic = [] := by
      rw [trendRowsFor]
      refine List.filter_eq_nil_iff.mpr (fun r hr => ?_)
      intro hcontra
      simp only [Bool.and_eq_true, beq_iff_eq] at hcontra
      exact hno r hr hcontra
    rw [trendQuery, hfil]
    rfl

/-- C8 witness: the contract instantiated on a concrete three-row table,
where user 7 asking for topic mi gets its two rows back in ascending
recordedAt order. -/
theorem mastery_trend_contract_witness :
    ("mi" ≠ "") ∧
    (masteryTrend sampleHistTable 7 none = .badRequest ∧
     masteryTrend sampleHistTable 7 (some "") = .badRequest ∧
     masteryTrend sampleHistTable 7 (some "mi") = .ok (trendQuery sampleHistTable 7 "mi") ∧
     (trendQuery sampleHistTable 7 "mi").Pairwise (fun a b => a.recorded_at ≤ b.recorded_at) ∧
     (∀ p ∈ trendQuery sampleHistTable 7 "mi", ∃ r ∈ sampleHistTable,
       r.user_id = 7 ∧ r.topic_name = "mi" ∧
       p = { mastery_score := r.mastery_score, recorded_at := r.recorded_at }) ∧
     ((∀ r ∈ sampleHistTable, ¬(r.user_id = 7 ∧ r.topic_name = "mi")) →
       trendQuery sampleHistTable 7 "mi" = [])) ∧
    trendQuery sampleHistTable 7 "mi" =
      [{ mastery_score := 10, recorded_at := 1 }, { mastery_score := 20, recorded_at := 5 }] := by
  refine ⟨by decide, mastery_trend_contract sampleHistTable 7 "mi" (by decide), by decide⟩

/-- C9 counterexample: a fetched question with no option marked correct
makes the whole V3 generation fail (500), rather than being skipped, and a
question with two options marked correct is returned (with the first
correct text as the answer), not excluded. -/
theorem malformed_question_cex :
    formatQuestions [qNoCorrect] = none ∧
    formatQuestions [qNoCorrect] ≠ some [] ∧
    formatQuestions [qTwoCorrect] =
      some [{ id := 8, question := "q eight", explanation := "ex", eli5 := "es",
              answer := "a", options := ["a", "b"] }] := by
  refine ⟨by decide, by decide, by decide⟩

/-- C9 amended: the V3 formatter does not skip malformed questions: one
fetched question with zero options marked correct aborts the entire
generation with an error, and when every fetched question has some correct
option (ambiguous multi-correct ones included) the response keeps all of
them. -/
theorem malformed_question_behavior (rows : List DBQuestion) :
    (∀ q ∈ rows, (∀ o ∈ q.options, o.is_correct = false) →
      formatQuestions rows = none) ∧
    ((∀ q ∈ rows, ∃ o ∈ q.options, o.is_correct = true) →
      ∃ l, formatQuestions rows = some l ∧ l.length = rows.length) := by
  constructor
  · intro q hq hall
    refine formatQuestions_none_of_mem rows q hq ?_
    have hfind : q.options.find? (fun o => o.is_correct) = none :=
      List.find?_eq_none.mpr (fun x hx => by simp [hall x hx])
    simp [formatQuestion, hfind]
  · exact formatQuestions_length rows

/-- C9 witness: the amended behavior at concrete rows: the zero-correct
question aborts its batch, and the ambiguous two-correct question is kept
(batch length preserved). -/
theorem malformed_question_behavior_witness :
    formatQuestions [qNoCorrect] = none ∧
    (∃ l, formatQuestions [qTwoCorrect] = some l ∧ l.length = [qTwoCorrect].length) :=
  ⟨(malformed_question_behavior [qNoCorrect]).1 qNoCorrect (by decide) (by decide),
   (malformed_question_behavior [qTwoCorrect]).2 (by decide)⟩

/-- C10: a submission for a (user, topic) with no user_mastery row still
succeeds: currentMastery defaults to 0, points are awarded, a history row
with the computed newMastery is appended, and the mastery store stays
without a row (the UPDATE matches nothing and creates nothing). -/
theorem submit_without_mastery_row (st : Store) (c t : ℤ)
    (hnone : st.mastery = none) (ht : 0 < t) :
    (submitQuiz st c t).2 = 200 ∧
    (submitQuiz st c t).1.mastery = none ∧
    (submitQuiz st c t).1.points = st.points + pointsEarnedOf c t ∧
    (submitQuiz st c t).1.history =
      st.history ++ [newMasteryNum 0 ((c : ℚ) / t * 100)] := by
  rw [submitQuiz_eval st c t (ne_of_gt ht)]
  simp [hnone]

/-- C10 witness: submit(correct=3, total=4) with no mastery row answers
200, awards 30 points, appends history value 15, and leaves the mastery
store without a row. -/
theorem submit_without_mastery_row_witness :
    (Store.mk 0 none []).mastery = none ∧ (0 : ℤ) < 4 ∧
    ((submitQuiz (Store.mk 0 none []) 3 4).2 = 200 ∧
     (submitQuiz (Store.mk 0 none []) 3 4).1.mastery = none ∧
     (submitQuiz (Store.mk 0 none []) 3 4).1.points =
       (Store.mk 0 none []).points + pointsEarnedOf 3 4 ∧
     (submitQuiz (Store.mk 0 none []) 3 4).1.history =
       (Store.mk 0 none []).history ++ [newMasteryNum 0 ((3 : ℚ) / 4 * 100)]) ∧
    (submitQuiz (Store.mk 0 none []) 3 4).1.history = [15] := by
  refine ⟨rfl, by norm_num,
    submit_without_mastery_row (Store.mk 0 none []) 3 4 rfl (by norm_num), ?_⟩
  rw [submitQuiz_eval _ 3 4 (by norm_num)]
  norm_num [newMasteryNum, min_def]
